import Mathlib

/-!
Shallow embedding of `src/halftone.py` (skunkworxdark/halftone-node).

The file embeds the halftone screen engine: parameter validation as declared
on the `HalftoneInvocation` pydantic fields, the rotated Euclidean dot-screen
function `euclid_dot`/`rotate`, grid evaluation `evaluate_2d_func`, the
elementwise strict greater-than mask, and the output reconstruction
(`pil_from_array` followed by a PIL mode conversion).  Machine floats are
embedded as exact reals (parameters arrive as rationals at the validation
boundary and are cast into ℝ for the trigonometric field).  Numpy arrays are
embedded as lists of lists in row-major order: `np.array` of a PIL image is
indexed `[row][column]`, so its `.shape` is `(height, width)`.
-/

namespace Halftone

/-- Constraint declared on the `spacing` field: `InputField(gt=0, le=800)`. -/
def spacingValid (s : ℚ) : Prop := 0 < s ∧ s ≤ 800

/-- Constraint declared on the `angle` field: `InputField(ge=0, lt=360)`. -/
def angleValid (a : ℚ) : Prop := 0 ≤ a ∧ a < 360

/-- Declared default of the `spacing` field. -/
def defaultSpacing : ℚ := 8

/-- Declared default of the `angle` field. -/
def defaultAngle : ℚ := 45

/-- A decoded source bitmap.  `gray r c` is the 8-bit luminance sample of
`image.convert("L")` at row `r`, column `c`; the luminance conversion itself
is performed by the imaging library and is opaque to the engine, so the
bitmap carries it as data. -/
structure PILImage where
  width : ℕ
  height : ℕ
  mode : String
  gray : ℕ → ℕ → ℕ

/-- The invocation's validated parameter record.  The pydantic field
declarations `spacing: float = InputField(gt=0, le=800)` and
`angle: float = InputField(ge=0, lt=360)` reject out-of-range values at
construction, so a constructed invocation always carries in-range values;
the embedding bundles that boundary validation as invariants. -/
structure HalftoneInvocation where
  image : Option PILImage
  spacing : ℚ
  angle : ℚ
  spacing_mem : spacingValid spacing
  angle_mem : angleValid angle

/-- `rotate(x, y, angle)`: rotate coordinates by `angle` degrees. -/
noncomputable def rotate (x y angle : ℝ) : ℝ × ℝ :=
  let angle_rad : ℝ := 2 * Real.pi * angle / 360
  (x * Real.cos angle_rad - y * Real.sin angle_rad,
   x * Real.sin angle_rad + y * Real.cos angle_rad)

/-- `euclid_dot(spacing, angle)`: the rotated Euclidean dot-screen function.
The returned function is evaluated at integer pixel coordinates by the
engine, but is defined on all real coordinates. -/
noncomputable def euclid_dot (spacing angle : ℝ) : ℝ → ℝ → ℝ :=
  let pixel_div : ℝ := 2.0 / spacing
  fun x y =>
    let r := rotate (x * pixel_div) (y * pixel_div) angle
    0.5 - (0.25 * (Real.sin (Real.pi * (r.1 + 0.5)) + Real.cos (Real.pi * r.2)))

/-- A 2D row-major grid of values `f i j` with `i < rows`, `j < cols`. -/
def grid {α : Type} (rows cols : ℕ) (f : ℕ → ℕ → α) : List (List α) :=
  (List.range rows).map fun i => (List.range cols).map fun j => f i j

/-- `evaluate_2d_func(img_shape, fn)`: broadcast `fn` over the index grids
`arange(w)[:, None]` and `arange(h)[None, :]`, giving the array with entry
`fn i j` at position `[i][j]`, where `(w, h) = img_shape`. -/
noncomputable def evaluate_2d_func (img_shape : ℕ × ℕ) (fn : ℝ → ℝ → ℝ) :
    List (List ℝ) :=
  grid img_shape.1 img_shape.2 fun i j => fn i j

/-- `array_from_pil(img)`: `np.array(img) / 255`.  Numpy stores the image
row-major, so the array is indexed `[row][column]` and has shape
`(height, width)`. -/
noncomputable def array_from_pil (img : PILImage) : List (List ℝ) :=
  grid img.height img.width fun r c => (img.gray r c : ℝ) / 255

/-- `image.shape` of the numpy array produced by `array_from_pil`:
`(height, width)`, numpy's row-major convention. -/
def npShape (img : PILImage) : ℕ × ℕ := (img.height, img.width)

open Classical in
/-- Elementwise `a > b` on two same-shaped numpy arrays (numpy broadcasting
of `>` over equal shapes). -/
noncomputable def gtMask (a b : List (List ℝ)) : List (List Bool) :=
  a.zipWith (fun ra rb => ra.zipWith (fun u v => decide (u > v)) rb) b

/-- Entry accessor for a 2D list with a default, used to state pointwise
properties of the arrays. -/
def ent {α : Type} (m : List (List α)) (r c : ℕ) (d : α) : α :=
  (m.getD r []).getD c d

/-- An in-memory output bitmap: size, mode and per-pixel channel samples. -/
structure OutImage where
  width : ℕ
  height : ℕ
  mode : String
  pixel : ℕ → ℕ → List ℕ

/-- `pil_from_array(arr)`: `Image.fromarray((arr * 255).astype("uint8"))` on
the boolean mask.  `True * 255 = 255` and `False * 255 = 0`; a numpy array of
shape `(H, W)` becomes a single-channel PIL image of width `W` and
height `H`. -/
def pil_from_array (arr : List (List Bool)) : OutImage :=
  { width := (arr.getD 0 []).length
    height := arr.length
    mode := "L"
    pixel := fun r c => [if (arr.getD r []).getD c false then 255 else 0] }

/-- PIL `convert` from a single-channel image to `"RGB"` or `"RGBA"`: the
channel value is replicated across the color channels, and for `"RGBA"` the
alpha channel is fully opaque (255).  Size is preserved. -/
def convertMode (img : OutImage) (target : String) : OutImage :=
  { width := img.width
    height := img.height
    mode := target
    pixel := fun r c =>
      let v := (img.pixel r c).getD 0 0
      if target = "RGBA" then [v, v, v, 255] else [v, v, v] }

/-- The pure pipeline of `invoke` on a decoded bitmap: normalize, generate
the screen over `image.shape`, threshold with `>`, rebuild a bitmap and
convert it to `"RGBA"` when the original mode was `"RGBA"`, else to
`"RGB"`. -/
noncomputable def halftoneImage (img : PILImage) (spacing angle : ℝ) :
    OutImage :=
  let image := array_from_pil img
  let halftoned :=
    gtMask image (evaluate_2d_func (npShape img) (euclid_dot spacing angle))
  let halftonedImg := pil_from_array halftoned
  if img.mode = "RGBA" then convertMode halftonedImg "RGBA"
  else convertMode halftonedImg "RGB"

/-- The halftone mask entry at row `r`, column `c`: the elementwise strict
greater-than comparison of the intensity array against the screen array. -/
noncomputable def maskEntry (img : PILImage) (s a : ℝ) (r c : ℕ) : Bool :=
  ent (gtMask (array_from_pil img)
    (evaluate_2d_func (npShape img) (euclid_dot s a))) r c false

/-- The 8-bit sample the reconstructor writes for the mask entry at
`(r, c)`: 255 where the mask is true, 0 where it is false. -/
noncomputable def maskSample (img : PILImage) (s a : ℝ) (r c : ℕ) : ℕ :=
  if maskEntry img s a r c then 255 else 0

/-- Error taxonomy of the surrounding system. -/
inductive HalftoneError where
  | invalidInput
  | parameterOutOfRange
  | shapeMismatch

/-- Modelled from the spec: the decode collaborator
(`context.services.images.get_pil_image`) is not part of `src/`; per the
spec it fails with an `InvalidInput` error when the source image is missing
or the decoded bitmap has zero width or zero height. -/
def decode (h : Option PILImage) : Except HalftoneError PILImage :=
  match h with
  | none => Except.error HalftoneError.invalidInput
  | some img =>
      if img.width = 0 ∨ img.height = 0 then
        Except.error HalftoneError.invalidInput
      else Except.ok img

/-- The reported result: the stored bitmap's handle content together with
its width and height, as returned by `ImageOutput`. -/
structure ImageOutput where
  image : OutImage
  width : ℕ
  height : ℕ

/-- `invoke(context)`: decode the source image, run the halftone pipeline,
persist the result and report its dimensions.  The second component is the
log of bitmaps handed to the storage collaborator
(`context.services.images.create`); on failure nothing is persisted. -/
noncomputable def invoke (inv : HalftoneInvocation) :
    Except HalftoneError ImageOutput × List OutImage :=
  match decode inv.image with
  | Except.error e => (Except.error e, [])
  | Except.ok img =>
      let out := halftoneImage img (inv.spacing : ℝ) (inv.angle : ℝ)
      (Except.ok ⟨out, out.width, out.height⟩, [out])

/-- `invoke` run in an environment whose random facility is `rng`.  The
source imports the `random` module but never consults it, so the result does
not depend on `rng`. -/
noncomputable def invokeWithRandom (rng : ℕ → ℕ) (inv : HalftoneInvocation) :
    Except HalftoneError ImageOutput × List OutImage :=
  invoke inv

/-- A concrete 2×3 RGBA bitmap (width 2, height 3) used as a test input. -/
def imgRGBA : PILImage := ⟨2, 3, "RGBA", fun _ _ => 128⟩

/-- A concrete 2×3 grayscale bitmap (width 2, height 3) used as a test
input. -/
def imgGray : PILImage := ⟨2, 3, "L", fun _ _ => 128⟩

/-- A concrete invocation holding `imgRGBA` with the default parameters. -/
def invRGBA : HalftoneInvocation :=
  ⟨some imgRGBA, defaultSpacing, defaultAngle, by norm_num [spacingValid, defaultSpacing], by norm_num [angleValid, defaultAngle]⟩

/-- A concrete invocation with a missing source image. -/
def invMissing : HalftoneInvocation :=
  ⟨none, defaultSpacing, defaultAngle, by norm_num [spacingValid, defaultSpacing], by norm_num [angleValid, defaultAngle]⟩

theorem length_grid {α : Type} (rows cols : ℕ) (f : ℕ → ℕ → α) :
    (grid rows cols f).length = rows := by
  simp [grid]

theorem getD_map_range {α : Type} (n i : ℕ) (g : ℕ → α) (d : α)
    (hi : i < n) :
    ((List.range n).map g).getD i d = g i := by
  rw [List.getD_eq_getElem ((List.range n).map g) d (by simpa using hi)]
  simp

theorem getD_map_range_ge {α : Type} (n i : ℕ) (g : ℕ → α) (d : α)
    (hi : n ≤ i) :
    ((List.range n).map g).getD i d = d := by
  exact List.getD_eq_default _ _ (by simpa using hi)

theorem grid_row {α : Type} (rows cols : ℕ) (f : ℕ → ℕ → α) (r : ℕ)
    (hr : r < rows) :
    (grid rows cols f).getD r [] = (List.range cols).map fun j => f r j :=
  getD_map_range rows r _ [] hr

theorem ent_grid {α : Type} (rows cols : ℕ) (f : ℕ → ℕ → α) (d : α)
    (r c : ℕ) (hr : r < rows) (hc : c < cols) :
    ent (grid rows cols f) r c d = f r c := by
  unfold ent
  rw [grid_row rows cols f r hr]
  exact getD_map_range cols c _ d hc

theorem zipWith_map_self {α β γ δ : Type} (l : List δ) (p : δ → α)
    (q : δ → β) (op : α → β → γ) :
    List.zipWith op (l.map p) (l.map q) = l.map fun i => op (p i) (q i) := by
  induction l with
  | nil => rfl
  | cons x xs ih => simp [ih]

theorem gtMask_grid (rows cols : ℕ) (f g : ℕ → ℕ → ℝ) :
    gtMask (grid rows cols f) (grid rows cols g)
      = grid rows cols fun i j => decide (f i j > g i j) := by
  unfold gtMask grid
  rw [zipWith_map_self]
  simp only [zipWith_map_self]

theorem length_gtMask_grid (rows cols : ℕ) (f g : ℕ → ℕ → ℝ) :
    (gtMask (grid rows cols f) (grid rows cols g)).length = rows := by
  rw [gtMask_grid]; exact length_grid rows cols _

theorem row_gtMask_grid (rows cols : ℕ) (f g : ℕ → ℕ → ℝ)
    (r : ℕ) (hr : r < rows) :
    ((gtMask (grid rows cols f) (grid rows cols g)).getD r []).length = cols := by
  rw [gtMask_grid, grid_row _ _ _ _ hr]
  simp

theorem ent_gtMask_grid (rows cols : ℕ) (f g : ℕ → ℕ → ℝ)
    (r c : ℕ) (hr : r < rows) (hc : c < cols) :
    ent (gtMask (grid rows cols f) (grid rows cols g)) r c false
      = decide (f r c > g r c) := by
  rw [gtMask_grid]
  exact ent_grid rows cols _ false r c hr hc

theorem array_from_pil_eq_grid (img : PILImage) :
    array_from_pil img
      = grid img.height img.width fun r c => (img.gray r c : ℝ) / 255 := rfl

theorem evaluate_2d_func_eq_grid (img : PILImage) (fn : ℝ → ℝ → ℝ) :
    evaluate_2d_func (npShape img) fn
      = grid img.height img.width fun i j => fn i j := rfl

theorem halftoneImage_height (img : PILImage) (s a : ℝ) :
    (halftoneImage img s a).height = img.height := by
  unfold halftoneImage
  by_cases hm : img.mode = "RGBA" <;>
    simp [hm, convertMode, pil_from_array, array_from_pil_eq_grid,
      evaluate_2d_func_eq_grid, length_gtMask_grid]

theorem halftoneImage_width (img : PILImage) (s a : ℝ)
    (hh : 0 < img.height) :
    (halftoneImage img s a).width = img.width := by
  unfold halftoneImage
  by_cases hm : img.mode = "RGBA" <;>
    simp only [hm, if_true, if_false, convertMode, pil_from_array,
      array_from_pil_eq_grid, evaluate_2d_func_eq_grid] <;>
    exact row_gtMask_grid _ _ _ _ 0 hh

theorem halftoneImage_mode (img : PILImage) (s a : ℝ) :
    (halftoneImage img s a).mode
      = (if img.mode = "RGBA" then "RGBA" else "RGB") := by
  unfold halftoneImage
  by_cases hm : img.mode = "RGBA" <;> simp [hm, convertMode]

theorem halftoneImage_pixel (img : PILImage) (s a : ℝ) (r c : ℕ) :
    (halftoneImage img s a).pixel r c
      = (if img.mode = "RGBA"
         then [maskSample img s a r c, maskSample img s a r c,
               maskSample img s a r c, 255]
         else [maskSample img s a r c, maskSample img s a r c,
               maskSample img s a r c]) := by
  unfold halftoneImage maskSample maskEntry
  by_cases hm : img.mode = "RGBA" <;> simp [hm, convertMode, pil_from_array, ent]

theorem screen_value_bounds (A B : ℝ) :
    0 ≤ 0.5 - (0.25 * (Real.sin A + Real.cos B)) ∧
      0.5 - (0.25 * (Real.sin A + Real.cos B)) ≤ 1 := by
  have h1 := Real.neg_one_le_sin A
  have h2 := Real.sin_le_one A
  have h3 := Real.neg_one_le_cos B
  have h4 := Real.cos_le_one B
  constructor <;> nlinarith

/-- C1: for every spacing > 0, every angle and every integer coordinate
`(x, y)`, the dot-screen threshold value equals
`0.5 - 0.25*(sin(π*(rx + 0.5)) + cos(π*ry))` where `(sx, sy) =
(x*(2.0/spacing), y*(2.0/spacing))` and `(rx, ry)` is `(sx, sy)` rotated by
`angle` degrees via `angle_rad = 2π*angle/360`,
`rx = sx*cos(angle_rad) - sy*sin(angle_rad)`,
`ry = sx*sin(angle_rad) + sy*cos(angle_rad)`. -/
theorem C1_dot_screen_formula (spacing angle : ℝ) (x y : ℤ)
    (hs : 0 < spacing) :
    euclid_dot spacing angle (x : ℝ) (y : ℝ) =
      0.5 - 0.25 * (Real.sin (Real.pi *
          (((x : ℝ) * (2.0 / spacing)) * Real.cos (2 * Real.pi * angle / 360)
            - ((y : ℝ) * (2.0 / spacing)) * Real.sin (2 * Real.pi * angle / 360)
            + 0.5))
        + Real.cos (Real.pi *
          (((x : ℝ) * (2.0 / spacing)) * Real.sin (2 * Real.pi * angle / 360)
            + ((y : ℝ) * (2.0 / spacing)) * Real.cos (2 * Real.pi * angle / 360)))) :=
  rfl

/-- Witness for C1 at spacing 8, angle 45, coordinate (3, 4). -/
theorem C1_dot_screen_formula_witness :
    (0:ℝ) < 8 ∧
    euclid_dot 8 45 ((3:ℤ) : ℝ) ((4:ℤ) : ℝ) =
      0.5 - 0.25 * (Real.sin (Real.pi *
          ((((3:ℤ) : ℝ) * (2.0 / 8)) * Real.cos (2 * Real.pi * 45 / 360)
            - (((4:ℤ) : ℝ) * (2.0 / 8)) * Real.sin (2 * Real.pi * 45 / 360)
            + 0.5))
        + Real.cos (Real.pi *
          ((((3:ℤ) : ℝ) * (2.0 / 8)) * Real.sin (2 * Real.pi * 45 / 360)
            + (((4:ℤ) : ℝ) * (2.0 / 8)) * Real.cos (2 * Real.pi * 45 / 360)))) :=
  ⟨by norm_num, C1_dot_screen_formula 8 45 3 4 (by norm_num)⟩

/-- C2: the halftone mask entry at every in-range coordinate is exactly the
strict greater-than comparison of the intensity array entry against the
threshold array entry. -/
theorem C2_mask_strict_gt (img : PILImage) (s a : ℝ) (r c : ℕ)
    (hr : r < img.height) (hc : c < img.width) :
    (maskEntry img s a r c = true)
      ↔ ent (array_from_pil img) r c 0
          > ent (evaluate_2d_func (npShape img) (euclid_dot s a)) r c 0 := by
  unfold maskEntry
  rw [array_from_pil_eq_grid, evaluate_2d_func_eq_grid]
  rw [ent_gtMask_grid _ _ _ _ r c hr hc]
  rw [ent_grid _ _ _ _ r c hr hc, ent_grid _ _ _ _ r c hr hc]
  simp

/-- Witness for C2 on the concrete bitmap `imgRGBA` at coordinate (0, 0). -/
theorem C2_mask_strict_gt_witness :
    0 < imgRGBA.height ∧ 0 < imgRGBA.width ∧
    ((maskEntry imgRGBA 8 45 0 0 = true)
      ↔ ent (array_from_pil imgRGBA) 0 0 0
          > ent (evaluate_2d_func (npShape imgRGBA) (euclid_dot 8 45)) 0 0 0) :=
  ⟨by norm_num [imgRGBA], by norm_num [imgRGBA],
   C2_mask_strict_gt imgRGBA 8 45 0 0 (by norm_num [imgRGBA])
     (by norm_num [imgRGBA])⟩

/-- C3: for every valid input image (present, with nonzero dimensions) and
in-range parameters, the invocation succeeds and the reported output width
and height exactly equal the input bitmap's width and height. -/
theorem C3_shape_preservation (inv : HalftoneInvocation) (img : PILImage)
    (him : inv.image = some img) (hw : 0 < img.width) (hh : 0 < img.height) :
    ∃ out : ImageOutput, (invoke inv).1 = Except.ok out ∧
      out.width = img.width ∧ out.height = img.height := by
  have hdec : decode inv.image = Except.ok img := by
    rw [him]
    simp [decode, hw.ne', hh.ne']
  refine ⟨⟨halftoneImage img (inv.spacing : ℝ) (inv.angle : ℝ),
      (halftoneImage img (inv.spacing : ℝ) (inv.angle : ℝ)).width,
      (halftoneImage img (inv.spacing : ℝ) (inv.angle : ℝ)).height⟩, ?_, ?_, ?_⟩
  · simp [invoke, hdec]
  · exact halftoneImage_width img _ _ hh
  · exact halftoneImage_height img _ _

/-- Witness for C3 on the concrete invocation `invRGBA` (a 2×3 bitmap). -/
theorem C3_shape_preservation_witness :
    invRGBA.image = some imgRGBA ∧ 0 < imgRGBA.width ∧ 0 < imgRGBA.height ∧
    ∃ out : ImageOutput, (invoke invRGBA).1 = Except.ok out ∧
      out.width = imgRGBA.width ∧ out.height = imgRGBA.height :=
  ⟨rfl, by norm_num [imgRGBA], by norm_num [imgRGBA],
   C3_shape_preservation invRGBA imgRGBA rfl (by norm_num [imgRGBA])
     (by norm_num [imgRGBA])⟩

/-- C4: for a fixed invocation, two runs in environments with different
random facilities produce identical results: the computation is a
deterministic function of its inputs and does not consult the imported but
unused random-number facility. -/
theorem C4_determinism (rng₁ rng₂ : ℕ → ℕ) (inv : HalftoneInvocation) :
    invokeWithRandom rng₁ inv = invokeWithRandom rng₂ inv := rfl

/-- C5: the output reconstructor maps the boolean mask to 8-bit samples
with false→0 and true→255; if the original mode was RGBA the output is a
4-channel RGBA bitmap with the mask value replicated across the color
channels and alpha fully opaque, and for every other original mode the
output is a 3-channel RGB bitmap. -/
theorem C5_output_reconstruction (img : PILImage) (s a : ℝ) (r c : ℕ) :
    maskSample img s a r c = (if maskEntry img s a r c then 255 else 0)
    ∧ (halftoneImage img s a).mode
        = (if img.mode = "RGBA" then "RGBA" else "RGB")
    ∧ (halftoneImage img s a).pixel r c
        = (if img.mode = "RGBA"
           then [maskSample img s a r c, maskSample img s a r c,
                 maskSample img s a r c, 255]
           else [maskSample img s a r c, maskSample img s a r c,
                 maskSample img s a r c])
    ∧ ((halftoneImage img s a).pixel r c).length
        = (if img.mode = "RGBA" then 4 else 3) := by
  refine ⟨rfl, halftoneImage_mode img s a, halftoneImage_pixel img s a r c, ?_⟩
  rw [halftoneImage_pixel img s a r c]
  by_cases hm : img.mode = "RGBA" <;> simp [hm]

/-- C6: the parameter bounds declared at the boundary: spacing satisfies
0 < spacing ≤ 800 with valid default 8, angle satisfies 0 ≤ angle < 360
with valid default 45; spacing = 0, spacing = 800.0001, angle = 360 and
angle = −1 are all rejected, and every constructed invocation carries only
in-range values, so the engine never receives out-of-range values. -/
theorem C6_boundary_validation :
    spacingValid defaultSpacing ∧ angleValid defaultAngle ∧
    ¬ spacingValid 0 ∧ ¬ spacingValid 800.0001 ∧
    ¬ angleValid 360 ∧ ¬ angleValid (-1) ∧
    ∀ inv : HalftoneInvocation,
      (0 < inv.spacing ∧ inv.spacing ≤ 800) ∧
        0 ≤ inv.angle ∧ inv.angle < 360 := by
  refine ⟨?_, ?_, ?_, ?_, ?_, ?_,
    fun inv => ⟨inv.spacing_mem, inv.angle_mem⟩⟩ <;>
    norm_num [spacingValid, angleValid, defaultSpacing, defaultAngle]

/-- C7: when the source image is missing or the decoded bitmap has zero
width or zero height, the invocation fails with an InvalidInput error and
nothing is handed to the storage collaborator. -/
theorem C7_invalid_input (inv : HalftoneInvocation)
    (h : inv.image = none ∨ ∃ img, inv.image = some img ∧
        (img.width = 0 ∨ img.height = 0)) :
    (invoke inv).1 = Except.error HalftoneError.invalidInput ∧
      (invoke inv).2 = [] := by
  have hdec : decode inv.image = Except.error HalftoneError.invalidInput := by
    rcases h with h0 | ⟨img, him, hz⟩
    · rw [h0]; rfl
    · rw [him]
      rcases hz with hz | hz <;> simp [decode, hz]
  constructor <;> simp [invoke, hdec]

/-- Witness for C7 on the concrete invocation with a missing image. -/
theorem C7_invalid_input_witness :
    (invMissing.image = none ∨ ∃ img, invMissing.image = some img ∧
        (img.width = 0 ∨ img.height = 0)) ∧
    ((invoke invMissing).1 = Except.error HalftoneError.invalidInput ∧
      (invoke invMissing).2 = []) :=
  ⟨Or.inl rfl, C7_invalid_input invMissing (Or.inl rfl)⟩

/-- C8 counterexample: on the 2×3 bitmap `imgRGBA` (width 2, height 3) the
first dimension handed to the screen generator is 3, not the bitmap's
width 2: the claim that the first dimension equals the width is false. -/
theorem C8_counterexample :
    ¬ ((evaluate_2d_func (npShape imgRGBA) (euclid_dot 8 45)).length
        = imgRGBA.width) := by
  rw [evaluate_2d_func_eq_grid, length_grid]
  norm_num [imgRGBA]

/-- C8 (amended): the shape passed to the screen generator is
`(height, width)` — numpy's row-major convention, so the first axis is the
row/height axis — and the threshold field is evaluated over exactly the
same domain as the intensity field: the two arrays have the same number of
rows and the same length in every row, so they align
coordinate-for-coordinate. -/
theorem C8_screen_domain_alignment (img : PILImage) (s a : ℝ) :
    npShape img = (img.height, img.width)
    ∧ (evaluate_2d_func (npShape img) (euclid_dot s a)).length
        = (array_from_pil img).length
    ∧ ∀ r : ℕ,
        ((evaluate_2d_func (npShape img) (euclid_dot s a)).getD r []).length
          = ((array_from_pil img).getD r []).length := by
  refine ⟨rfl, ?_, ?_⟩
  · rw [evaluate_2d_func_eq_grid, array_from_pil_eq_grid,
      length_grid, length_grid]
  · intro r
    rw [evaluate_2d_func_eq_grid, array_from_pil_eq_grid]
    by_cases hr : r < img.height
    · rw [grid_row _ _ _ _ hr, grid_row _ _ _ _ hr]
      simp
    · unfold grid
      rw [getD_map_range_ge _ _ _ _ (le_of_not_lt hr),
        getD_map_range_ge _ _ _ _ (le_of_not_lt hr)]

/-- C9: with angle 0, the dot-screen function is periodic along the x
direction with period `spacing`: shifting x by any integer multiple of the
spacing leaves the value unchanged (exactly, in real arithmetic). -/
theorem C9_periodicity (spacing : ℝ) (hs : 0 < spacing) (x y : ℝ) (k : ℤ) :
    euclid_dot spacing 0 (x + k * spacing) y = euclid_dot spacing 0 x y := by
  have hs0 : spacing ≠ 0 := ne_of_gt hs
  simp only [euclid_dot, rotate]
  have hrad : 2 * Real.pi * (0:ℝ) / 360 = 0 := by ring
  rw [hrad, Real.cos_zero, Real.sin_zero]
  have h1 : Real.pi * ((x + (k:ℝ) * spacing) * (2.0 / spacing) * 1
        - y * (2.0 / spacing) * 0 + 0.5)
      = Real.pi * (x * (2.0 / spacing) * 1 - y * (2.0 / spacing) * 0 + 0.5)
        + (k:ℝ) * (2 * Real.pi) := by
    field_simp
    ring
  have h2 : Real.pi * ((x + (k:ℝ) * spacing) * (2.0 / spacing) * 0
        + y * (2.0 / spacing) * 1)
      = Real.pi * (x * (2.0 / spacing) * 0 + y * (2.0 / spacing) * 1) := by
    ring
  rw [h1, h2, Real.sin_add_int_mul_two_pi]

/-- Witness for C9 at spacing 8, coordinate (1, 2), shift k = 3. -/
theorem C9_periodicity_witness :
    (0:ℝ) < 8 ∧
    euclid_dot 8 0 (1 + ((3:ℤ) : ℝ) * 8) 2 = euclid_dot 8 0 1 2 :=
  ⟨by norm_num, C9_periodicity 8 (by norm_num) 1 2 3⟩

/-- C10: under exact real arithmetic, for every spacing > 0, every angle
and every coordinate, the dot-screen value lies in the closed interval
[0, 1], because each trigonometric term is bounded by 1 in absolute
value. -/
theorem C10_value_in_unit_interval (spacing angle x y : ℝ)
    (hs : 0 < spacing) :
    0 ≤ euclid_dot spacing angle x y ∧ euclid_dot spacing angle x y ≤ 1 := by
  simp only [euclid_dot, rotate]
  exact screen_value_bounds _ _

/-- Witness for C10 at spacing 8, angle 45, coordinate (3, 4). -/
theorem C10_value_in_unit_interval_witness :
    (0:ℝ) < 8 ∧
    (0 ≤ euclid_dot 8 45 3 4 ∧ euclid_dot 8 45 3 4 ≤ 1) :=
  ⟨by norm_num, C10_value_in_unit_interval 8 45 3 4 (by norm_num)⟩

end Halftone
